import Mathlib

/-!
Shallow embedding of the CI/CD engine core (job queue, cache manager,
orchestrator) and proofs about its scheduling, caching and failure
semantics.

Modelling conventions:
- The key-value metadata store is modelled per key namespace: the
  `status:{jobId}` records, the retained `job:{jobId}` configs and the
  `queue:{priority}:{timestamp}:{jobId}` entries live in dedicated fields
  of `KVState`, keyed by the variable part of the key.  `put` replaces any
  entry with the same key, `get` returns the stored value, `delete`
  removes it, mirroring the KV contract.
- The execution sandbox is an oracle: `exec`/`readFile`/`writeFile` are
  functions from their arguments to `Except String _`; a `.error msg`
  models a rejected promise with that message.  The per-step timeout race
  is folded into the oracle: a run in which the timer fires first is the
  run where `exec` returns `.error "Step timeout"`, which the source
  handles in the same catch branch as any other dispatch exception.
- `Date.now()` is modelled by an explicit `now : Nat` argument; within a
  single operation all stamps read the same clock value.
- The SHA-256 hex digest from node:crypto is an external collaborator and
  is modelled as a function parameter `hash : String → String`.
-/

namespace CICD

/-! ### Data model (types.ts) -/

/-- `JobStatus.status` values. -/
inductive JStatus
  | queued | running | success | failure | timeout | cancelled
deriving DecidableEq, Repr

/-- `StepResult.status` values. -/
inductive SStatus
  | pending | running | success | failure | skipped
deriving DecidableEq, Repr

/-- `StepResult` from types.ts.  Times are `Nat` clock readings; `duration`
is an `Int` because JS subtraction of timestamps may be negative. -/
structure StepResult where
  name : String
  status : SStatus
  output : Option String := none
  exitCode : Option Int := none
  duration : Option Int := none
  startedAt : Option Nat := none
  finishedAt : Option Nat := none
deriving DecidableEq, Repr

/-- `JobStatus` from types.ts (the unused `sandboxId` field is omitted). -/
structure JobStatus where
  id : String
  status : JStatus
  currentStep : Option Nat := none
  startedAt : Option Nat := none
  finishedAt : Option Nat := none
  duration : Option Int := none
  steps : List StepResult
  error : Option String := none
deriving DecidableEq, Repr

/-- `JobStep` from types.ts.  `env` is a `Record<string,string>` iterated in
insertion order; an absent `continueOnError` behaves as `false`. -/
structure JobStep where
  name : String
  run : String
  workingDir : Option String := none
  env : List (String × String) := []
  continueOnError : Bool := false
  timeout : Option Nat := none
deriving DecidableEq, Repr

/-- `JobConfig` from types.ts.  An absent `cacheKeys` behaves as `[]`. -/
structure JobConfig where
  id : String
  repo : String
  commit : String
  branch : String := ""
  steps : List JobStep
  env : List (String × String) := []
  cacheKeys : List String := []
  timeout : Option Nat := none
  priority : Option Nat := none
deriving DecidableEq, Repr

/-- Result of `sandbox.exec`. -/
structure ExecResult where
  stdout : String
  stderr : String
  exitCode : Int
deriving DecidableEq, Repr

/-- The execution-sandbox oracle (`ISandbox`): command dispatch and file
I/O as functions of their arguments; `.error` models a rejection. -/
structure Sandbox where
  exec : String → Option String → Except String ExecResult
  readFile : String → Except String String
  writeFile : String → String → Except String Unit

/-- A blob-store object: body plus `customMetadata`. -/
structure R2Object where
  body : String
  customMetadata : List (String × String) := []
deriving DecidableEq, Repr

/-- `CacheKey` metadata record from types.ts. -/
structure CacheMeta where
  key : String
  paths : List String
  lastUsed : Nat
  size : Option Nat := none
deriving DecidableEq, Repr

/-- `WorkspaceSnapshot` from types.ts. -/
structure WorkspaceSnapshot where
  jobId : String
  sandboxId : String
  commit : String
  timestamp : Nat
  archivePath : String
  size : Nat
deriving DecidableEq, Repr

/-! ### KV association-list primitives -/

/-- KV `get`: first binding of the key (bindings are kept unique by
`kvPut`). -/
def kvGet {α : Type} (l : List (String × α)) (k : String) : Option α :=
  match l.find? (fun p => p.1 == k) with
  | some p => some p.2
  | none => none

/-- KV `put`: replaces any existing binding of the key. -/
def kvPut {α : Type} (l : List (String × α)) (k : String) (v : α) :
    List (String × α) :=
  (k, v) :: l.filter (fun p => !(p.1 == k))

/-- KV `delete`. -/
def kvDel {α : Type} (l : List (String × α)) (k : String) :
    List (String × α) :=
  l.filter (fun p => !(p.1 == k))

/-! ### Job queue state (job-queue.ts) -/

/-- One `queue:{priority}:{timestamp}:{jobId}` entry.  `value` is the job
the key dereferences to; `none` models an entry whose stored value is no
longer retrievable (e.g. its TTL expired between `list` and `get`). -/
structure QueueEntry where
  priority : Nat
  timestamp : Nat
  jobId : String
  value : Option JobConfig
deriving DecidableEq, Repr

/-- The key string `queue:{priority}:{timestamp}:{jobId}` of an entry. -/
def QueueEntry.keyName (e : QueueEntry) : String :=
  "queue:" ++ toString e.priority ++ ":" ++ toString e.timestamp ++ ":" ++ e.jobId

/-- Whether two entries carry the same queue key. -/
def QueueEntry.sameKey (a b : QueueEntry) : Bool :=
  a.priority == b.priority && a.timestamp == b.timestamp && a.jobId == b.jobId

/-- The queue's KV namespaces: `queue:` entries, `status:{jobId}` records
(keyed by job id) and retained `job:{jobId}` configs (keyed by job id). -/
structure KVState where
  queue : List QueueEntry
  statuses : List (String × JobStatus)
  jobs : List (String × JobConfig)
deriving DecidableEq, Repr

/-- `QueueConfig` from job-queue.ts. -/
structure QueueConfig where
  maxConcurrent : Nat
  defaultPriority : Nat
  maxRetries : Nat
deriving DecidableEq, Repr

/-- The constructor-default configuration. -/
def defaultQueueConfig : QueueConfig :=
  { maxConcurrent := 10, defaultPriority := 5, maxRetries := 3 }

namespace JobQueue

/-- `getJobStatus`: read `status:{jobId}`. -/
def getJobStatus (s : KVState) (jobId : String) : Option JobStatus :=
  kvGet s.statuses jobId

/-- `updateJobStatus`: replace `status:{jobId}`. -/
def updateJobStatus (s : KVState) (jobId : String) (status : JobStatus) :
    KVState :=
  { s with statuses := kvPut s.statuses jobId status }

/-- `enqueue`: write the queue entry keyed by `(priority, now, jobId)` and
initialize the job's status to `queued` with one `pending` slot per step. -/
def enqueue (cfg : QueueConfig) (now : Nat) (s : KVState) (job : JobConfig) :
    KVState :=
  let priority := job.priority.getD cfg.defaultPriority
  let entry : QueueEntry :=
    { priority := priority, timestamp := now, jobId := job.id, value := some job }
  let s1 : KVState :=
    { s with queue := entry :: s.queue.filter (fun e => !(e.sameKey entry)) }
  let status : JobStatus :=
    { id := job.id, status := .queued,
      steps := job.steps.map (fun st => { name := st.name, status := .pending }) }
  updateJobStatus s1 job.id status

/-- `getRunningJobCount`: number of stored statuses currently `running`. -/
def getRunningJobCount (s : KVState) : Nat :=
  (s.statuses.filter (fun p => p.2.status == .running)).length

/-- The dequeue comparator: key `a` sorts before key `b` when `a` has the
higher priority, or equal priority and the earlier timestamp (the JS
comparator `parseInt(pB) - parseInt(pA)` then `parseInt(tA) - parseInt(tB)`
as a total boolean order). -/
def qle (a b : QueueEntry) : Bool :=
  decide (b.priority < a.priority) ||
    (a.priority == b.priority && decide (a.timestamp ≤ b.timestamp))

/-- `qle` as a relation, for sorting. -/
def qleRel (a b : QueueEntry) : Prop :=
  qle a b = true

instance : DecidableRel qleRel := fun a b => by
  unfold qleRel
  infer_instance

instance : IsTotal QueueEntry qleRel :=
  ⟨by
    intro a b
    simp only [qleRel, qle, Bool.or_eq_true, decide_eq_true_eq, Bool.and_eq_true,
      beq_iff_eq]
    omega⟩

instance : IsTrans QueueEntry qleRel :=
  ⟨by
    intro a b c
    simp only [qleRel, qle, Bool.or_eq_true, decide_eq_true_eq, Bool.and_eq_true,
      beq_iff_eq]
    omega⟩

/-- `dequeue`: admission check against `maxConcurrent`, then pick the head
of the queue entries sorted by the comparator (JS `Array.sort` is a stable
comparator sort, modelled by stable insertion sort), delete it, flip its
status to `running` and stamp `startedAt`. -/
def dequeue (cfg : QueueConfig) (now : Nat) (s : KVState) :
    Option JobConfig × KVState :=
  if getRunningJobCount s ≥ cfg.maxConcurrent then
    (none, s)
  else if s.queue.isEmpty then
    (none, s)
  else
    match List.insertionSort qleRel s.queue with
    | [] => (none, s)  -- unreachable: sorting a nonempty list
    | first :: _ =>
      match first.value with
      | none => (none, s)
      | some jobData =>
        let s1 : KVState :=
          { s with queue := s.queue.filter (fun e => !(e.sameKey first)) }
        match getJobStatus s1 jobData.id with
        | none => (some jobData, s1)
        | some st =>
          (some jobData,
            updateJobStatus s1 jobData.id
              { st with status := .running, startedAt := some now })

/-- A serial sequence of `dequeue` calls at successive clock readings (the
scheduler's periodic tick, polling serially). -/
def dequeueRun (cfg : QueueConfig) : List Nat → KVState → KVState
  | [], s => s
  | n :: rest, s => dequeueRun cfg rest (dequeue cfg n s).2

/-- `listJobs`: all stored statuses, optionally filtered by status value. -/
def listJobs (s : KVState) (statusFilter : Option JStatus) : List JobStatus :=
  (s.statuses.map (fun p => p.2)).filter
    (fun st =>
      match statusFilter with
      | none => true
      | some f => st.status == f)

/-- `key.name.endsWith(suffix)`, computed on the underlying character
lists so that concrete instances evaluate by `decide`. -/
def strEndsWith (s suffix : String) : Bool :=
  suffix.data.isSuffixOf s.data

/-- Delete the first queue entry (in enumeration order) whose key name ends
with `:{jobId}`, as `cancelJob`'s scan-and-break does.  No theorem below
depends on the enumeration order among several matching entries. -/
def deleteQueueEntryFor : List QueueEntry → String → List QueueEntry
  | [], _ => []
  | e :: rest, jobId =>
    if strEndsWith e.keyName (":" ++ jobId) then rest
    else e :: deleteQueueEntryFor rest jobId

/-- `cancelJob`: `false` for an unknown job; otherwise remove the queue
entry when still `queued`, then unconditionally set the status to
`cancelled`, stamping `finishedAt` (and `duration` when `startedAt` is
truthy, i.e. set and nonzero). -/
def cancelJob (now : Nat) (s : KVState) (jobId : String) : Bool × KVState :=
  match getJobStatus s jobId with
  | none => (false, s)
  | some status =>
    let s1 : KVState :=
      if status.status == .queued then
        { s with queue := deleteQueueEntryFor s.queue jobId }
      else s
    let duration' : Option Int :=
      match status.startedAt with
      | some t => if t ≠ 0 then some ((now : Int) - (t : Int)) else status.duration
      | none => status.duration
    let status2 : JobStatus :=
      { status with status := .cancelled, finishedAt := some now, duration := duration' }
    (true, updateJobStatus s1 jobId status2)

/-- `retryJob`: only when the current status is `failure` and the original
config was retained under `job:{jobId}`; re-enqueues it. -/
def retryJob (cfg : QueueConfig) (now : Nat) (s : KVState) (jobId : String) :
    Bool × KVState :=
  match getJobStatus s jobId with
  | none => (false, s)
  | some status =>
    if status.status ≠ .failure then (false, s)
    else
      match kvGet s.jobs jobId with
      | none => (false, s)
      | some jobData => (true, enqueue cfg now s jobData)

/-- `storeJobConfig`: retain the config under `job:{jobId}`. -/
def storeJobConfig (s : KVState) (job : JobConfig) : KVState :=
  { s with jobs := kvPut s.jobs job.id job }

/-- The prune predicate: `status.finishedAt && status.finishedAt < cutoff &&
['success','failure','cancelled'].includes(status.status)`.  JS truthiness
makes `finishedAt = 0` (and absent) fail the first conjunct. -/
def shouldPrune (cutoff : Int) (st : JobStatus) : Bool :=
  match st.finishedAt with
  | none => false
  | some t =>
    t != 0 && decide ((t : Int) < cutoff) &&
      (st.status == .success || st.status == .failure || st.status == .cancelled)

/-- The `pruneCompletedJobs` loop over the pre-listed snapshot of statuses:
deletes `status:{id}` and `job:{id}` for each record matching
`shouldPrune` and counts the deletions. -/
def pruneLoop (cutoff : Int) : List JobStatus → KVState → Nat × KVState
  | [], s => (0, s)
  | st :: rest, s =>
    if shouldPrune cutoff st then
      let s' : KVState :=
        { s with statuses := kvDel s.statuses st.id, jobs := kvDel s.jobs st.id }
      let r := pruneLoop cutoff rest s'
      (r.1 + 1, r.2)
    else pruneLoop cutoff rest s

/-- `pruneCompletedJobs(maxAge)`. -/
def pruneCompletedJobs (now : Nat) (maxAge : Nat) (s : KVState) :
    Nat × KVState :=
  let cutoff : Int := (now : Int) - (maxAge : Int)
  pruneLoop cutoff (listJobs s none) s

end JobQueue

/-! ### Cache manager (cache-manager.ts) -/

/-- The cache manager's stores: the blob bucket (keyed by object path) and
the `cache:{cacheKey}` metadata records (keyed by cache key). -/
structure CacheState where
  blobs : List (String × R2Object)
  meta : List (String × CacheMeta)
deriving DecidableEq, Repr

/-- One sandbox side effect, recorded so that theorems can state that an
operation touched the sandbox filesystem (or did not). -/
inductive SandboxAction
  | exec (cmd : String) (workingDir : Option String)
  | write (path : String) (content : String)
deriving DecidableEq, Repr

namespace CacheManager

/-- The lockfile-content collection loop of `generateCacheKey`: read each
manifest in order, silently skipping any whose read fails. -/
def collectLockfiles (sb : Sandbox) (lockfiles : List String) : List String :=
  lockfiles.filterMap (fun f => (sb.readFile f).toOption)

/-- `generateCacheKey(repo, commit, lockfiles, sandbox?)`: parts `[repo,
commit]`, plus — when a sandbox is given, the path list is nonempty and at
least one manifest was readable — the first 12 hex characters of the digest
of the in-order concatenation of the manifest contents; joined with `-`. -/
def generateCacheKey (hash : String → String) (repo commit : String)
    (lockfiles : List String) (sandbox : Option Sandbox) : String :=
  match sandbox with
  | some sb =>
    if lockfiles.length > 0 then
      let contents := collectLockfiles sb lockfiles
      if contents.length > 0 then
        String.intercalate "-" [repo, commit, (hash (String.join contents)).take 12]
      else
        String.intercalate "-" [repo, commit]
    else
      String.intercalate "-" [repo, commit]
  | none => String.intercalate "-" [repo, commit]

/-- `stdout.trim()`, computed on the underlying character list so that
concrete instances evaluate by `decide`/`rfl`. -/
def strTrim (s : String) : String :=
  ⟨((s.data.dropWhile Char.isWhitespace).reverse.dropWhile
      Char.isWhitespace).reverse⟩

/-- The existence-probe loop of `saveCache`: `test -d` each path in order,
keeping those answering `exists`.  A rejected probe propagates. -/
def probePaths (sb : Sandbox) : List String → Except String (List String)
  | [] => .ok []
  | p :: rest => do
    let r ← sb.exec ("test -d " ++ p ++ " && echo exists || echo missing") none
    let more ← probePaths sb rest
    if strTrim r.stdout == "exists" then .ok (p :: more) else .ok more

/-- `saveCache(cacheKey, paths, sandbox)`: archive the existing paths,
upload the bundle under `cache/{cacheKey}.tar.gz` with metadata, record the
`CacheKey` entry.  Throws `No cache directories found to archive` when no
path exists.  (Base64 transcoding is modelled as the identity on the
archive content string; blob effects applied before a later rejection are
not modelled, no claim concerns them.) -/
def saveCache (sb : Sandbox) (now : Nat) (cacheKey : String)
    (paths : List String) (st : CacheState) :
    Except String (CacheMeta × CacheState) := do
  let archiveKey := "cache/" ++ cacheKey ++ ".tar.gz"
  let existingPaths ← probePaths sb paths
  if existingPaths.length == 0 then
    .error "No cache directories found to archive"
  else do
    let _ ← sb.exec ("tar -czf /tmp/cache.tar.gz " ++ String.intercalate " " existingPaths) none
    let archiveContent ← sb.readFile "/tmp/cache.tar.gz"
    let obj : R2Object :=
      { body := archiveContent,
        customMetadata :=
          [("cacheKey", cacheKey), ("paths", String.intercalate "," paths),
           ("timestamp", toString now), ("size", toString archiveContent.length)] }
    let st1 : CacheState := { st with blobs := kvPut st.blobs archiveKey obj }
    let _ ← sb.exec "rm /tmp/cache.tar.gz" none
    let cacheMetadata : CacheMeta :=
      { key := cacheKey, paths := paths, lastUsed := now,
        size := some archiveContent.length }
    let st2 : CacheState := { st1 with meta := kvPut st1.meta cacheKey cacheMetadata }
    .ok (cacheMetadata, st2)

/-- `restoreCache(cacheKey, sandbox)`: probe the blob store for
`cache/{cacheKey}.tar.gz`; on a miss return `false` at once; on a hit
download, extract, clean up and refresh `lastUsed`.  The third component
records the sandbox side effects performed. -/
def restoreCache (sb : Sandbox) (now : Nat) (cacheKey : String)
    (st : CacheState) :
    Except String Bool × CacheState × List SandboxAction :=
  let archiveKey := "cache/" ++ cacheKey ++ ".tar.gz"
  match kvGet st.blobs archiveKey with
  | none => (.ok false, st, [])
  | some obj =>
    let a1 : SandboxAction := .write "/tmp/cache.tar.gz" obj.body
    match sb.writeFile "/tmp/cache.tar.gz" obj.body with
    | .error m => (.error m, st, [a1])
    | .ok _ =>
      let a2 : SandboxAction := .exec "tar -xzf /tmp/cache.tar.gz -C /" none
      match sb.exec "tar -xzf /tmp/cache.tar.gz -C /" none with
      | .error m => (.error m, st, [a1, a2])
      | .ok _ =>
        let a3 : SandboxAction := .exec "rm /tmp/cache.tar.gz" none
        match sb.exec "rm /tmp/cache.tar.gz" none with
        | .error m => (.error m, st, [a1, a2, a3])
        | .ok _ =>
          let st' : CacheState :=
            match kvGet st.meta cacheKey with
            | none => st
            | some metadata =>
              { st with
                meta := kvPut st.meta cacheKey { metadata with lastUsed := now } }
          (.ok true, st', [a1, a2, a3])

/-- `getDefaultCachePaths` project-type keys. -/
inductive ProjectType
  | node | python | go | rust
deriving DecidableEq, Repr

/-- The static default cache-path table. -/
def getDefaultCachePaths : ProjectType → List String
  | .node => ["node_modules", ".npm", ".yarn/cache"]
  | .python => [".venv", "__pycache__", ".pip-cache", ".cache/pip"]
  | .go => ["go/pkg/mod", ".cache/go-build"]
  | .rust => ["target", ".cargo/registry", ".cargo/git"]

end CacheManager

/-! ### State manager (state-manager.ts) -/

namespace StateManager

/-- `createSnapshot`: archive the workspace paths, upload the bundle under
`snapshots/{jobId}/{commit}/{timestamp}.tar.gz` with metadata, clean up. -/
def createSnapshot (sb : Sandbox) (now : Nat) (jobId commit : String)
    (paths : List String) (snaps : List (String × R2Object)) :
    Except String (WorkspaceSnapshot × List (String × R2Object)) := do
  let archiveKey :=
    "snapshots/" ++ jobId ++ "/" ++ commit ++ "/" ++ toString now ++ ".tar.gz"
  let _ ← sb.exec ("tar -czf /tmp/snapshot.tar.gz " ++ String.intercalate " " paths) none
  let archiveContent ← sb.readFile "/tmp/snapshot.tar.gz"
  let obj : R2Object :=
    { body := archiveContent,
      customMetadata :=
        [("jobId", jobId), ("commit", commit), ("timestamp", toString now),
         ("paths", String.intercalate "," paths)] }
  let snaps' := kvPut snaps archiveKey obj
  let _ ← sb.exec "rm /tmp/snapshot.tar.gz" none
  .ok ({ jobId := jobId, sandboxId := "unknown", commit := commit,
         timestamp := now, archivePath := archiveKey, size := archiveContent.length },
       snaps')

end StateManager

/-! ### Orchestrator (orchestrator.ts) -/

/-- The whole mutable world the orchestrator touches: the queue KV, the
cache manager's stores, and the snapshot bucket. -/
structure World where
  kv : KVState
  cache : CacheState
  snapshots : List (String × R2Object)
deriving DecidableEq, Repr

namespace Orchestrator

/-- The `export KEY="VALUE"` loops applying an env record through the
sandbox; a rejected export propagates. -/
def exportEnv (sb : Sandbox) : List (String × String) → Except String Unit
  | [] => .ok ()
  | (k, v) :: rest => do
    let _ ← sb.exec ("export " ++ k ++ "=\x22" ++ v ++ "\x22") none
    exportEnv sb rest

/-- `setupWorkspace`: mkdir, clone, checkout, apply `job.env`.  Any
rejection propagates to `executeJob`'s catch. -/
def setupWorkspace (sb : Sandbox) (job : JobConfig) : Except String Unit := do
  let _ ← sb.exec "mkdir -p /workspace" none
  let _ ← sb.exec ("git clone " ++ job.repo ++ " /workspace/repo") (some "/workspace")
  let _ ← sb.exec ("git checkout " ++ job.commit) (some "/workspace/repo")
  exportEnv sb job.env

/-- `executeStep`: apply step env, run the command in its working directory
(default `/workspace/repo`); exit code 0 yields `success`, nonzero yields
`failure` with the same output capture (`stdout || stderr`); any rejection
— including the step-timeout race, whose timer firing is the oracle
returning `.error "Step timeout"` — yields `failure` with the message as
output and exit code 1.  `startedAt`/`finishedAt`/`duration` are stamped in
every case. -/
def executeStep (sb : Sandbox) (step : JobStep) (now : Nat) : StepResult :=
  let startedAt := now
  let attempt : Except String ExecResult := do
    exportEnv sb step.env
    sb.exec step.run (some (step.workingDir.getD "/workspace/repo"))
  match attempt with
  | .ok r =>
    { name := step.name,
      status := if r.exitCode == 0 then .success else .failure,
      output := some (if r.stdout != "" then r.stdout else r.stderr),
      exitCode := some r.exitCode,
      startedAt := some startedAt, finishedAt := some now,
      duration := some ((now : Int) - (startedAt : Int)) }
  | .error m =>
    { name := step.name, status := .failure, output := some m,
      exitCode := some 1,
      startedAt := some startedAt, finishedAt := some now,
      duration := some ((now : Int) - (startedAt : Int)) }

/-- The orchestrator's private `restoreCache`: derive the key and attempt a
restore, swallowing every failure into a cache-miss signal.  (The KV
metadata refresh that `CacheManager.restoreCache` performs on a hit is kept;
the sandbox trace is dropped here.) -/
def restoreCachePhase (hash : String → String) (sb : Sandbox) (now : Nat)
    (job : JobConfig) (cache : CacheState) : Bool × CacheState :=
  if job.cacheKeys.isEmpty then (false, cache)
  else
    let cacheKey :=
      CacheManager.generateCacheKey hash job.repo job.commit job.cacheKeys (some sb)
    match CacheManager.restoreCache sb now cacheKey cache with
    | (.ok hit, st', _) => (hit, st')
    | (.error _, st', _) => (false, st')

/-- The orchestrator's private `saveCache`: derive the key, union the node,
python and go default path sets, attempt the save, swallowing failures. -/
def saveCachePhase (hash : String → String) (sb : Sandbox) (now : Nat)
    (job : JobConfig) (cache : CacheState) : CacheState :=
  if job.cacheKeys.isEmpty then cache
  else
    let cacheKey :=
      CacheManager.generateCacheKey hash job.repo job.commit job.cacheKeys (some sb)
    let cachePaths :=
      CacheManager.getDefaultCachePaths .node ++
        CacheManager.getDefaultCachePaths .python ++
          CacheManager.getDefaultCachePaths .go
    match CacheManager.saveCache sb now cacheKey cachePaths cache with
    | .ok (_, st') => st'
    | .error _ => cache

/-- The step loop of `executeJob`, from step index `i`: advance
`currentStep` and persist, execute the step, write the result into slot `i`
(`List.set`; statuses are enqueue-initialized with one slot per step, so
`i` is always in range), and stop early on a hard failure, setting job
status `failure` with an error naming the step.  In-loop status persistence
is modelled as non-throwing (the KV is the state being computed). -/
def stepLoop (sb : Sandbox) (now : Nat) (job : JobConfig) (i : Nat) :
    List JobStep → JobStatus → KVState → JobStatus × KVState
  | [], status, kv => (status, kv)
  | step :: rest, status, kv =>
    let status1 : JobStatus := { status with currentStep := some i }
    let kv1 := JobQueue.updateJobStatus kv job.id status1
    let stepResult := executeStep sb step now
    let status2 : JobStatus := { status1 with steps := status1.steps.set i stepResult }
    if stepResult.status == .failure && !step.continueOnError then
      ({ status2 with
          status := .failure,
          error := some ("Step \x22" ++ step.name ++ "\x22 failed") }, kv1)
    else
      stepLoop sb now job (i + 1) rest status2 kv1

/-- `executeJob`: load the status (propagating `Job status not found` when
absent), then run the try/catch/finally pipeline: setup → cache restore →
step loop → success check → cache save → snapshot → finalize and persist.
An exception inside the try block carries the status and world as already
mutated, exactly as the caught JS exception leaves them in scope. -/
def executeJob (hash : String → String) (sb : Sandbox) (now : Nat)
    (job : JobConfig) (w : World) : Except String (JobStatus × World) :=
  match JobQueue.getJobStatus w.kv job.id with
  | none => .error ("Job status not found: " ++ job.id)
  | some status0 =>
    let tryRes : (JobStatus × World) ⊕ (String × JobStatus × World) :=
      match setupWorkspace sb job with
      | .error e => .inr (e, status0, w)
      | .ok _ =>
        let restored := restoreCachePhase hash sb now job w.cache
        let w1 : World := { w with cache := restored.2 }
        let looped := stepLoop sb now job 0 job.steps status0 w1.kv
        let w2 : World := { w1 with kv := looped.2 }
        let status1 := looped.1
        let status2 : JobStatus :=
          if status1.steps.all (fun s => s.status == .success || s.status == .skipped)
          then { status1 with status := .success }
          else status1
        let w3 : World :=
          if status2.status == .success && !job.cacheKeys.isEmpty then
            { w2 with cache := saveCachePhase hash sb now job w2.cache }
          else w2
        if status2.status == .success then
          match StateManager.createSnapshot sb now job.id job.commit ["/workspace"] w3.snapshots with
          | .error e => .inr (e, status2, w3)
          | .ok r => .inl (status2, { w3 with snapshots := r.2 })
        else
          .inl (status2, w3)
    let afterCatch : JobStatus × World :=
      match tryRes with
      | .inl r => r
      | .inr (msg, st, w') =>
        ({ st with status := .failure, error := some msg }, w')
    let durationF : Option Int :=
      match afterCatch.1.startedAt with
      | some t => if t ≠ 0 then some ((now : Int) - (t : Int)) else afterCatch.1.duration
      | none => afterCatch.1.duration
    let statusF : JobStatus :=
      { afterCatch.1 with finishedAt := some now, duration := durationF }
    let wF : World :=
      { afterCatch.2 with
          kv := JobQueue.updateJobStatus afterCatch.2.kv job.id statusF }
    .ok (statusF, wF)

end Orchestrator

/-! ### Store lemmas -/

theorem kvGet_kvPut_self {α : Type} (l : List (String × α)) (k : String) (v : α) :
    kvGet (kvPut l k v) k = some v := by
  simp [kvGet, kvPut]

theorem length_filter_filter_le {α : Type} (P Q : α → Bool) (l : List α) :
    (List.filter P (List.filter Q l)).length ≤ (List.filter P l).length := by
  rw [List.filter_filter, ← List.countP_eq_length_filter, ← List.countP_eq_length_filter]
  refine List.countP_mono_left ?_
  intro a _ hpq
  exact (Bool.and_eq_true _ _ |>.mp hpq).1

/-- Replacing one status record grows the running count by at most one. -/
theorem getRunningJobCount_update_le (s : KVState) (jobId : String)
    (st : JobStatus) :
    JobQueue.getRunningJobCount (JobQueue.updateJobStatus s jobId st) ≤
      JobQueue.getRunningJobCount s + 1 := by
  unfold JobQueue.getRunningJobCount JobQueue.updateJobStatus kvPut
  simp only [List.filter_cons]
  split
  · simpa using Nat.succ_le_succ
      (length_filter_filter_le (fun p => p.2.status == .running)
        (fun p => !(p.1 == jobId)) s.statuses)
  · exact le_trans
      (length_filter_filter_le (fun p => p.2.status == .running)
        (fun p => !(p.1 == jobId)) s.statuses)
      (Nat.le_succ _)

theorem getJobStatus_update_self (s : KVState) (jobId : String)
    (st : JobStatus) :
    JobQueue.getJobStatus (JobQueue.updateJobStatus s jobId st) jobId =
      some st := by
  unfold JobQueue.getJobStatus JobQueue.updateJobStatus
  exact kvGet_kvPut_self _ _ _

theorem qle_refl (e : QueueEntry) : JobQueue.qle e e = true := by
  simp [JobQueue.qle]

/-- One `dequeue` call preserves the `maxConcurrent` bound on running
statuses. -/
theorem dequeue_count_le (cfg : QueueConfig) (now : Nat) (s : KVState)
    (h : JobQueue.getRunningJobCount s ≤ cfg.maxConcurrent) :
    JobQueue.getRunningJobCount (JobQueue.dequeue cfg now s).2 ≤
      cfg.maxConcurrent := by
  unfold JobQueue.dequeue
  split
  · exact h
  next hge =>
    split
    · exact h
    · dsimp only
      split
      · exact h
      · split
        · exact h
        · split
          · exact h
          · next st heq =>
            refine le_trans (getRunningJobCount_update_le _ _ _) ?_
            have hlt : JobQueue.getRunningJobCount s < cfg.maxConcurrent :=
              Nat.lt_of_not_le hge
            exact hlt

/-! ### Concrete fixtures -/

/-- The empty store. -/
def kvEmpty : KVState := { queue := [], statuses := [], jobs := [] }

/-- A minimal job with a given id and priority. -/
def mkJob (i : String) (p : Nat) : JobConfig :=
  { id := i, repo := "r", commit := "c", steps := [], priority := some p }

def jobA : JobConfig := mkJob "A" 5
def jobB : JobConfig := mkJob "B" 8
def jobC : JobConfig := mkJob "C" 5

/-- Jobs A(priority 5, t=0), B(priority 8, t=1), C(priority 5, t=2)
enqueued into the empty store. -/
def scenState : KVState :=
  JobQueue.enqueue defaultQueueConfig 2
    (JobQueue.enqueue defaultQueueConfig 1
      (JobQueue.enqueue defaultQueueConfig 0 kvEmpty jobA) jobB) jobC

/-- A store holding exactly one `running` status. -/
def sRunning : KVState :=
  { queue := [], statuses := [("r1", { id := "r1", status := .running, steps := [] })],
    jobs := [] }

/-- A one-slot concurrency configuration. -/
def cfgOne : QueueConfig := { maxConcurrent := 1, defaultPriority := 5, maxRetries := 3 }

/-- A queue entry whose stored value has expired. -/
def qeExpired : QueueEntry := { priority := 9, timestamp := 0, jobId := "E", value := none }

/-- A lower-priority queue entry whose value is still retrievable. -/
def qeLive : QueueEntry := { priority := 1, timestamp := 1, jobId := "F", value := some (mkJob "F" 1) }

/-- A store whose sorted queue head dereferences to nothing while a live
entry waits behind it. -/
def sExpired : KVState := { queue := [qeExpired, qeLive], statuses := [], jobs := [] }

/-! ### Claim theorems: job queue -/

/-- Claim C3: `dequeue` first counts the `running` statuses and, at or
above `maxConcurrent`, returns no job and leaves the store untouched;
consequently any serial sequence of dequeue calls keeps the number of
`running` statuses at or below `maxConcurrent`. -/
theorem dequeue_admission_controls_running_count (cfg : QueueConfig)
    (s : KVState) (now : Nat) :
    (JobQueue.getRunningJobCount s ≥ cfg.maxConcurrent →
      JobQueue.dequeue cfg now s = (none, s)) ∧
    (∀ ns : List Nat, JobQueue.getRunningJobCount s ≤ cfg.maxConcurrent →
      JobQueue.getRunningJobCount (JobQueue.dequeueRun cfg ns s) ≤
        cfg.maxConcurrent) := by
  constructor
  · intro hge
    unfold JobQueue.dequeue
    rw [if_pos hge]
  · intro ns
    induction ns generalizing s with
    | nil => exact fun h => h
    | cons n rest ih => exact fun h => ih _ (dequeue_count_le cfg n s h)

/-- Witness for C3 at a concrete one-slot store. -/
theorem dequeue_admission_controls_running_count_witness :
    JobQueue.dequeue cfgOne 0 sRunning = (none, sRunning) ∧
    JobQueue.getRunningJobCount (JobQueue.dequeueRun cfgOne [1, 2] sRunning) ≤
      cfgOne.maxConcurrent :=
  ⟨(dequeue_admission_controls_running_count cfgOne sRunning 0).1 (by decide),
   (dequeue_admission_controls_running_count cfgOne sRunning 0).2 [1, 2] (by decide)⟩

/-- Claim C4: a successful `dequeue` always hands out a pending entry that
beats every other queued entry under the priority-then-timestamp order
(so a higher-priority job is returned before any lower-priority one, and
equal priorities go in enqueue-timestamp order); concretely, after
enqueuing A(5, t=0), B(8, t=1), C(5, t=2), successive dequeues yield
B, then A, then C. -/
theorem dequeue_priority_then_fifo :
    (∀ (cfg : QueueConfig) (now : Nat) (s : KVState) (job : JobConfig)
        (s' : KVState),
      JobQueue.dequeue cfg now s = (some job, s') →
      ∃ e ∈ s.queue, e.value = some job ∧
        ∀ e' ∈ s.queue, JobQueue.qle e e' = true) ∧
    ((JobQueue.dequeue defaultQueueConfig 3 scenState).1 = some jobB ∧
     (JobQueue.dequeue defaultQueueConfig 4
        (JobQueue.dequeue defaultQueueConfig 3 scenState).2).1 = some jobA ∧
     (JobQueue.dequeue defaultQueueConfig 5
        (JobQueue.dequeue defaultQueueConfig 4
          (JobQueue.dequeue defaultQueueConfig 3 scenState).2).2).1 = some jobC) := by
  constructor
  · intro cfg now s job s' h
    unfold JobQueue.dequeue at h
    split at h
    · exact absurd h (by simp)
    · split at h
      · exact absurd h (by simp)
      · dsimp only at h
        split at h
        · exact absurd h (by simp)
        · next first rest heq =>
          split at h
          · exact absurd h (by simp)
          · next jobData hv =>
            have hjob : jobData = job := by
              split at h <;> · injection h with h1 _; injection h1
            subst hjob
            have hmem : first ∈ s.queue := by
              have hperm := List.perm_insertionSort JobQueue.qleRel s.queue
              exact hperm.subset (heq ▸ List.mem_cons_self first rest)
            refine ⟨first, hmem, hv, ?_⟩
            intro e' he'
            have hperm := (List.perm_insertionSort JobQueue.qleRel s.queue).symm
            have he'' : e' ∈ first :: rest := heq ▸ hperm.subset he'
            rcases List.mem_cons.mp he'' with rfl | htail
            · exact qle_refl e'
            · have hsorted := List.sorted_insertionSort JobQueue.qleRel s.queue
              rw [heq] at hsorted
              exact (List.pairwise_cons.mp hsorted).1 e' htail
  · refine ⟨by decide, by decide, by decide⟩

/-- Witness for C4's general part at the concrete scenario: the entry
handed out for job B dominates every queued entry. -/
theorem dequeue_priority_then_fifo_witness :
    ∃ e ∈ scenState.queue, e.value = some jobB ∧
      ∀ e' ∈ scenState.queue, JobQueue.qle e e' = true :=
  dequeue_priority_then_fifo.1 defaultQueueConfig 3 scenState jobB
    (JobQueue.dequeue defaultQueueConfig 3 scenState).2 (by decide)

/-- Claim C10: when the sorted head queue entry dereferences to a missing
value, `dequeue` returns no job and leaves the store untouched — it
neither deletes the dead entry nor tries the next entry. -/
theorem dequeue_missing_head_value (cfg : QueueConfig) (now : Nat)
    (s : KVState) (first : QueueEntry) (rest : List QueueEntry)
    (hcount : ¬JobQueue.getRunningJobCount s ≥ cfg.maxConcurrent)
    (hsort : List.insertionSort JobQueue.qleRel s.queue = first :: rest)
    (hval : first.value = none) :
    JobQueue.dequeue cfg now s = (none, s) := by
  have hne : s.queue.isEmpty = false := by
    cases hq : s.queue with
    | nil =>
      rw [hq] at hsort
      exact absurd hsort (by simp [List.insertionSort])
    | cons a t => rfl
  unfold JobQueue.dequeue
  rw [if_neg hcount, if_neg (by simp [hne]), hsort]
  simp only [hval]

/-- Witness for C10: the expired high-priority head blocks the live
lower-priority entry behind it. -/
theorem dequeue_missing_head_value_witness :
    JobQueue.dequeue defaultQueueConfig 3 sExpired = (none, sExpired) ∧
    qeLive ∈ sExpired.queue ∧ qeLive.value.isSome = true :=
  ⟨dequeue_missing_head_value defaultQueueConfig 3 sExpired qeExpired [qeLive]
      (by decide) (by decide) rfl,
   by decide, rfl⟩

theorem kvGet_kvPut_ne {α : Type} (l : List (String × α)) (k k' : String)
    (v : α) (h : k' ≠ k) : kvGet (kvPut l k v) k' = kvGet l k' := by
  unfold kvGet kvPut
  rw [List.find?_cons_of_neg _ (by simpa using fun hk => h hk.symm)]
  congr 1
  induction l with
  | nil => rfl
  | cons a t ih =>
    by_cases ha : a.1 = k
    · rw [List.filter_cons_of_neg (by simpa using ha),
        List.find?_cons_of_neg _ (by simpa using ha ▸ fun hk => h hk.symm), ih]
    · rw [List.filter_cons_of_pos (by simpa using ha)]
      by_cases ha' : a.1 = k'
      · rw [List.find?_cons_of_pos _ (by simpa using ha'),
          List.find?_cons_of_pos _ (by simpa using ha')]
      · rw [List.find?_cons_of_neg _ (by simpa using ha'),
          List.find?_cons_of_neg _ (by simpa using ha'), ih]

/-- A store holding one job whose status is already terminal (`success`). -/
def sTerminal : KVState :=
  { queue := [],
    statuses := [("q", { id := "q", status := .success, steps := [] })],
    jobs := [] }

/-- A store holding one `failure` job with its retained config. -/
def sFailed : KVState :=
  { queue := [],
    statuses := [("f", { id := "f", status := .failure, steps := [] })],
    jobs := [("f", mkJob "f" 2)] }

/-- Counterexample to claim C2 as stated: `cancelJob` on a job whose status
is already terminal (`success`) rewrites its status field to `cancelled`. -/
theorem cancelJob_rewrites_terminal_status :
    (JobQueue.getJobStatus sTerminal "q").map (fun st => st.status) =
      some .success ∧
    (JobQueue.getJobStatus (JobQueue.cancelJob 7 sTerminal "q").2 "q").map
        (fun st => st.status) = some .cancelled := by
  decide

/-- Claim C2 (amended): terminal statuses are not immutable.  Operations on
other job ids leave a record alone, and `retryJob` refuses any job whose
status is not `failure`; but `cancelJob` rewrites any existing job's status
to `cancelled` even when it is already terminal, and `retryJob` on a
`failure` job with a retained config re-enqueues it, resetting its status
record to `queued`. -/
theorem terminal_status_mutation_spec :
    (∀ (now : Nat) (s : KVState) (jobId : String) (st : JobStatus),
      JobQueue.getJobStatus s jobId = some st →
        (JobQueue.cancelJob now s jobId).1 = true ∧
        (JobQueue.getJobStatus (JobQueue.cancelJob now s jobId).2 jobId).map
            (fun r => r.status) = some .cancelled) ∧
    (∀ (cfg : QueueConfig) (now : Nat) (s : KVState) (jobId : String)
        (st : JobStatus),
      JobQueue.getJobStatus s jobId = some st → st.status ≠ .failure →
        JobQueue.retryJob cfg now s jobId = (false, s)) ∧
    (∀ (cfg : QueueConfig) (now : Nat) (s : KVState) (jobId : String)
        (st : JobStatus) (job : JobConfig),
      JobQueue.getJobStatus s jobId = some st → st.status = .failure →
        kvGet s.jobs jobId = some job →
        (JobQueue.retryJob cfg now s jobId).1 = true ∧
        (JobQueue.getJobStatus (JobQueue.retryJob cfg now s jobId).2 job.id).map
            (fun r => r.status) = some .queued) ∧
    (∀ (now : Nat) (s : KVState) (jobId other : String), other ≠ jobId →
      JobQueue.getJobStatus (JobQueue.cancelJob now s jobId).2 other =
        JobQueue.getJobStatus s other) := by
  refine ⟨?_, ?_, ?_, ?_⟩
  · intro now s jobId st h
    unfold JobQueue.cancelJob
    rw [h]
    exact ⟨rfl, by
      dsimp only
      unfold JobQueue.getJobStatus JobQueue.updateJobStatus
      rw [kvGet_kvPut_self]
      rfl⟩
  · intro cfg now s jobId st h hne
    unfold JobQueue.retryJob
    simp only [h]
    rw [if_pos hne]
  · intro cfg now s jobId st job h hf hjob
    unfold JobQueue.retryJob
    simp only [h]
    rw [if_neg (by simp [hf])]
    simp only [hjob]
    refine ⟨trivial, ?_⟩
    dsimp only
    unfold JobQueue.enqueue JobQueue.getJobStatus JobQueue.updateJobStatus
    dsimp only
    rw [kvGet_kvPut_self]
    rfl
  · intro now s jobId other hne
    unfold JobQueue.cancelJob
    cases h : JobQueue.getJobStatus s jobId with
    | none => rfl
    | some st =>
      dsimp only
      unfold JobQueue.getJobStatus JobQueue.updateJobStatus
      split
      · exact kvGet_kvPut_ne s.statuses jobId other _ hne
      · exact kvGet_kvPut_ne s.statuses jobId other _ hne

/-- Witness for C2's amended statement at concrete stores. -/
theorem terminal_status_mutation_spec_witness :
    ((JobQueue.cancelJob 7 sTerminal "q").1 = true ∧
      (JobQueue.getJobStatus (JobQueue.cancelJob 7 sTerminal "q").2 "q").map
          (fun r => r.status) = some .cancelled) ∧
    JobQueue.retryJob defaultQueueConfig 8 sTerminal "q" = (false, sTerminal) ∧
    ((JobQueue.retryJob defaultQueueConfig 9 sFailed "f").1 = true ∧
      (JobQueue.getJobStatus
          (JobQueue.retryJob defaultQueueConfig 9 sFailed "f").2 "f").map
          (fun r => r.status) = some .queued) ∧
    JobQueue.getJobStatus (JobQueue.cancelJob 7 sTerminal "q").2 "other" =
      JobQueue.getJobStatus sTerminal "other" :=
  ⟨terminal_status_mutation_spec.1 7 sTerminal "q" _ rfl,
   terminal_status_mutation_spec.2.1 defaultQueueConfig 8 sTerminal "q" _ rfl
     (by decide),
   terminal_status_mutation_spec.2.2.1 defaultQueueConfig 9 sFailed "f" _
     (mkJob "f" 2) rfl (by decide) rfl,
   terminal_status_mutation_spec.2.2.2 7 sTerminal "q" "other" (by decide)⟩

/-! ### Pruning lemmas -/

/-- The ids of the snapshot records the prune loop will delete. -/
def prunedIds (cutoff : Int) (sts : List JobStatus) : List String :=
  (sts.filter (JobQueue.shouldPrune cutoff)).map (fun st => st.id)

theorem notMem_cons_bool (x i : String) (ids : List String) :
    (!decide (x ∈ ids) && !(x == i)) = !decide (x ∈ i :: ids) := by
  by_cases hx : x = i <;> by_cases hm : x ∈ ids <;> simp [hx, hm]

theorem filter_del_merge {α : Type} (i : String) (ids : List String)
    (l : List (String × α)) :
    List.filter (fun p => !decide (p.1 ∈ ids))
        (List.filter (fun p => !(p.1 == i)) l) =
      List.filter (fun p => !decide (p.1 ∈ i :: ids)) l := by
  rw [List.filter_filter]
  refine List.filter_congr ?_
  intro p _
  exact notMem_cons_bool p.1 i _

theorem eq_of_mem_of_nodup_keys {α : Type} {l : List (String × α)}
    (h : (l.map Prod.fst).Nodup) {p q : String × α}
    (hp : p ∈ l) (hq : q ∈ l) (hk : p.1 = q.1) : p = q := by
  induction l with
  | nil => cases hp
  | cons a t ih =>
    simp only [List.map_cons, List.nodup_cons] at h
    rcases List.mem_cons.mp hp with rfl | hp' <;>
      rcases List.mem_cons.mp hq with rfl | hq'
    · rfl
    · exact absurd (hk ▸ List.mem_map_of_mem Prod.fst hq') h.1
    · exact absurd (hk ▸ List.mem_map_of_mem Prod.fst hp') (hk ▸ h.1)
    · exact ih h.2 hp' hq'

/-- Closed form of the prune loop: the count is the number of snapshot
records matching `shouldPrune`, and the status and config stores lose
exactly the keys among the pruned ids. -/
theorem pruneLoop_spec (cutoff : Int) (sts : List JobStatus) (s : KVState) :
    JobQueue.pruneLoop cutoff sts s =
      (sts.countP (JobQueue.shouldPrune cutoff),
       { s with
          statuses := s.statuses.filter
            (fun p => !decide (p.1 ∈ prunedIds cutoff sts)),
          jobs := s.jobs.filter
            (fun p => !decide (p.1 ∈ prunedIds cutoff sts)) }) := by
  induction sts generalizing s with
  | nil => simp [JobQueue.pruneLoop, prunedIds]
  | cons st rest ih =>
    by_cases hp : JobQueue.shouldPrune cutoff st
    · rw [JobQueue.pruneLoop, if_pos hp]
      dsimp only
      rw [ih]
      have hids : prunedIds cutoff (st :: rest) = st.id :: prunedIds cutoff rest := by
        simp [prunedIds, List.filter_cons_of_pos, hp]
      rw [List.countP_cons_of_pos _ _ hp, hids]
      dsimp only
      unfold kvDel
      rw [filter_del_merge, filter_del_merge]
    · rw [JobQueue.pruneLoop, if_neg hp]
      rw [ih]
      have hids : prunedIds cutoff (st :: rest) = prunedIds cutoff rest := by
        simp [prunedIds, List.filter_cons_of_neg, hp]
      rw [List.countP_cons_of_neg _ _ hp, hids]

/-! ### Claim theorems: pruning -/

/-- A store with one qualifying `success` record whose `finishedAt` is the
literal clock value 0. -/
def sZero : KVState :=
  { queue := [],
    statuses :=
      [("p", { id := "p", status := .success, finishedAt := some 0, steps := [] })],
    jobs := [("p", mkJob "p" 1)] }

/-- Counterexample to claim C8 as stated: at `now = 10`, `maxAge = 1` the
stored `success` record with `finishedAt = 0` is older than `maxAge`
(0 < 10 - 1), so the claim demands its deletion, yet `pruneCompletedJobs`
deletes nothing and returns 0 — JS truthiness of `status.finishedAt`
skips the record. -/
theorem prune_skips_zero_finishedAt :
    (JobQueue.getJobStatus sZero "p").map (fun st => st.status) =
      some .success ∧
    (JobQueue.getJobStatus sZero "p").map (fun st => st.finishedAt) =
      some (some 0) ∧
    ((0 : Int) < (10 : Int) - (1 : Int)) ∧
    JobQueue.pruneCompletedJobs 10 1 sZero = (0, sZero) := by
  decide

/-- Claim C8 (amended): for a well-keyed status store,
`pruneCompletedJobs(maxAge)` deletes the JobStatus and retained Job config
for exactly those records whose status is `success`, `failure` or
`cancelled` and whose `finishedAt` is set, nonzero and older than `maxAge`;
it returns the number deleted, leaves the queue entries alone, and keeps
every `timeout` and non-terminal record. -/
theorem pruneCompletedJobs_spec (now maxAge : Nat) (s : KVState)
    (hkeys : ∀ p ∈ s.statuses, p.2.id = p.1)
    (hnodup : (s.statuses.map Prod.fst).Nodup) :
    (JobQueue.pruneCompletedJobs now maxAge s).1 =
      s.statuses.countP
        (fun p => JobQueue.shouldPrune ((now : Int) - (maxAge : Int)) p.2) ∧
    (JobQueue.pruneCompletedJobs now maxAge s).2.statuses =
      s.statuses.filter
        (fun p => !(JobQueue.shouldPrune ((now : Int) - (maxAge : Int)) p.2)) ∧
    (JobQueue.pruneCompletedJobs now maxAge s).2.jobs =
      s.jobs.filter (fun p =>
        !(s.statuses.any (fun q =>
          q.1 == p.1 && JobQueue.shouldPrune ((now : Int) - (maxAge : Int)) q.2))) ∧
    (JobQueue.pruneCompletedJobs now maxAge s).2.queue = s.queue ∧
    ∀ p ∈ s.statuses,
      (p.2.status = .timeout ∨ p.2.status = .queued ∨ p.2.status = .running) →
      p ∈ (JobQueue.pruneCompletedJobs now maxAge s).2.statuses := by
  have hlist : JobQueue.listJobs s none = s.statuses.map (fun p => p.2) := by
    simp [JobQueue.listJobs]
  have hrw : JobQueue.pruneCompletedJobs now maxAge s =
      JobQueue.pruneLoop ((now : Int) - (maxAge : Int))
        (s.statuses.map (fun p => p.2)) s := by
    rw [JobQueue.pruneCompletedJobs, hlist]
  set cutoff : Int := (now : Int) - (maxAge : Int) with hcut
  have hmemIds : ∀ p ∈ s.statuses,
      p.1 ∈ prunedIds cutoff (s.statuses.map (fun q => q.2)) ↔
        JobQueue.shouldPrune cutoff p.2 = true := by
    intro p hp
    constructor
    · intro hmem
      rcases List.mem_map.mp hmem with ⟨st, hst, hid⟩
      rcases List.mem_filter.mp hst with ⟨hst', hsp⟩
      rcases List.mem_map.mp hst' with ⟨q, hq, rfl⟩
      have : q = p := eq_of_mem_of_nodup_keys hnodup hq hp ((hkeys q hq) ▸ hid)
      exact this ▸ hsp
    · intro hsp
      exact List.mem_map.mpr ⟨p.2,
        List.mem_filter.mpr ⟨List.mem_map_of_mem (fun q => q.2) hp, hsp⟩,
        hkeys p hp⟩
  have hstat : (JobQueue.pruneLoop cutoff (s.statuses.map (fun p => p.2)) s).2.statuses =
      s.statuses.filter (fun p => !(JobQueue.shouldPrune cutoff p.2)) := by
    rw [pruneLoop_spec]
    refine List.filter_congr fun p hp => ?_
    by_cases hm : p.1 ∈ prunedIds cutoff (s.statuses.map (fun q => q.2))
    · rw [decide_eq_true hm, (hmemIds p hp).mp hm]
    · rw [decide_eq_false hm,
        Bool.eq_false_iff.mpr (fun h => hm ((hmemIds p hp).mpr h))]
  refine ⟨?_, ?_, ?_, ?_, ?_⟩
  · rw [hrw, pruneLoop_spec]
    exact List.countP_map _ _ _
  · rw [hrw]; exact hstat
  · rw [hrw, pruneLoop_spec]
    refine List.filter_congr fun p _ => ?_
    have hiff : p.1 ∈ prunedIds cutoff (s.statuses.map (fun q => q.2)) ↔
        (s.statuses.any (fun q =>
          q.1 == p.1 && JobQueue.shouldPrune cutoff q.2)) = true := by
      constructor
      · intro hmem
        rcases List.mem_map.mp hmem with ⟨st, hst, hid⟩
        rcases List.mem_filter.mp hst with ⟨hst', hsp⟩
        rcases List.mem_map.mp hst' with ⟨q, hq, rfl⟩
        exact List.any_eq_true.mpr ⟨q, hq, by
          simp [Bool.and_eq_true, beq_iff_eq, (hkeys q hq) ▸ hid, hsp]⟩
      · intro hany
        rcases List.any_eq_true.mp hany with ⟨q, hq, hcond⟩
        rcases Bool.and_eq_true _ _ |>.mp hcond with ⟨hqe, hsp⟩
        exact List.mem_map.mpr ⟨q.2,
          List.mem_filter.mpr ⟨List.mem_map_of_mem (fun r => r.2) hq, hsp⟩,
          (hkeys q hq).trans (beq_iff_eq.mp hqe)⟩
    by_cases hm : p.1 ∈ prunedIds cutoff (s.statuses.map (fun q => q.2))
    · rw [decide_eq_true hm, hiff.mp hm]
    · rw [decide_eq_false hm, Bool.eq_false_iff.mpr (fun h => hm (hiff.mpr h))]
  · rw [hrw, pruneLoop_spec]
  · intro p hp hkind
    rw [hrw, hstat]
    refine List.mem_filter.mpr ⟨hp, ?_⟩
    have : JobQueue.shouldPrune cutoff p.2 = false := by
      rcases hkind with hk | hk | hk <;>
        · cases hf : p.2.finishedAt <;> simp [JobQueue.shouldPrune, hf, hk]
    simp [this]

/-- A store mixing an old `success` record (pruned), an old `timeout`
record (kept) and a `running` record (kept). -/
def sMix : KVState :=
  { queue := [],
    statuses :=
      [("s1", { id := "s1", status := .success, finishedAt := some 1, steps := [] }),
       ("t1", { id := "t1", status := .timeout, finishedAt := some 1, steps := [] }),
       ("u1", { id := "u1", status := .running, steps := [] })],
    jobs := [("s1", mkJob "s1" 1), ("t1", mkJob "t1" 1)] }

/-- Witness for C8's amended statement at a concrete mixed store. -/
theorem pruneCompletedJobs_spec_witness :
    (JobQueue.pruneCompletedJobs 10 1 sMix).1 =
      sMix.statuses.countP
        (fun p => JobQueue.shouldPrune ((10 : Int) - (1 : Int)) p.2) ∧
    (JobQueue.pruneCompletedJobs 10 1 sMix).2.statuses =
      sMix.statuses.filter
        (fun p => !(JobQueue.shouldPrune ((10 : Int) - (1 : Int)) p.2)) ∧
    (JobQueue.pruneCompletedJobs 10 1 sMix).2.jobs =
      sMix.jobs.filter (fun p =>
        !(sMix.statuses.any (fun q =>
          q.1 == p.1 && JobQueue.shouldPrune ((10 : Int) - (1 : Int)) q.2))) ∧
    (JobQueue.pruneCompletedJobs 10 1 sMix).2.queue = sMix.queue ∧
    ∀ p ∈ sMix.statuses,
      (p.2.status = .timeout ∨ p.2.status = .queued ∨ p.2.status = .running) →
      p ∈ (JobQueue.pruneCompletedJobs 10 1 sMix).2.statuses :=
  pruneCompletedJobs_spec 10 1 sMix (by decide) (by decide)

/-! ### Claim theorems: cache manager -/

/-- String right-cancellation through the data lists. -/
theorem string_append_right_cancel {a b c : String} (h : a ++ c = b ++ c) :
    a = b := by
  have hd : a.data ++ c.data = b.data ++ c.data := by
    have := congrArg String.data h
    simpa [String.data_append] using this
  exact String.ext (List.append_cancel_right hd)

/-- String left-cancellation through the data lists. -/
theorem string_append_left_cancel {a b c : String} (h : c ++ a = c ++ b) :
    a = b := by
  have hd : c.data ++ a.data = c.data ++ b.data := by
    have := congrArg String.data h
    simpa [String.data_append] using this
  exact String.ext (List.append_cancel_left hd)

/-- A sandbox in which every manifest file reads as the same content. -/
def sbSameContent : Sandbox :=
  { exec := fun _ _ => .ok { stdout := "", stderr := "", exitCode := 0 },
    readFile := fun _ => .ok "x",
    writeFile := fun _ _ => .ok () }

/-- Counterexample to claim C6 as stated: with two manifest files of
identical content, reordering the manifest paths yields the identical cache
key (the hashed concatenation is unchanged), refuting "for every list of
manifest paths, reordering the paths changes the resulting key".  The
digest function is instantiated concretely, but the two keys agree because
the hashed inputs coincide, for any digest function. -/
theorem generateCacheKey_reorder_same_key :
    CacheManager.generateCacheKey (fun s => s ++ "#d") "r" "c"
        ["a.lock", "b.lock"] (some sbSameContent) =
      CacheManager.generateCacheKey (fun s => s ++ "#d") "r" "c"
        ["b.lock", "a.lock"] (some sbSameContent) ∧
    (["a.lock", "b.lock"] : List String) ≠ ["b.lock", "a.lock"] := by
  constructor
  · rfl
  · decide

/-- Claim C6 (amended): `generateCacheKey` is a pure function of the repo,
commit and the in-order contents of the readable manifests — two sandboxes
agreeing on the manifest reads give the identical key; changing the content
of exactly one readable manifest changes the hashed concatenation, and
changes the key whenever the truncated digests of the two concatenations
differ; reordering the manifest paths changes the key only through the
collected contents — if the collected content list is unchanged (e.g. two
identical-content manifests are swapped) the key is unchanged. -/
theorem generateCacheKey_spec :
    (∀ (hash : String → String) (repo commit : String) (files : List String)
        (sb sb' : Sandbox),
      (∀ f ∈ files, sb.readFile f = sb'.readFile f) →
      CacheManager.generateCacheKey hash repo commit files (some sb) =
        CacheManager.generateCacheKey hash repo commit files (some sb')) ∧
    (∀ (pre post : List String) (c c' : String), c ≠ c' →
      String.join (pre ++ c :: post) ≠ String.join (pre ++ c' :: post)) ∧
    (∀ (hash : String → String) (repo commit : String) (files : List String)
        (sb sb' : Sandbox),
      CacheManager.collectLockfiles sb files ≠ [] →
      CacheManager.collectLockfiles sb' files ≠ [] →
      (hash (String.join (CacheManager.collectLockfiles sb files))).take 12 ≠
        (hash (String.join (CacheManager.collectLockfiles sb' files))).take 12 →
      CacheManager.generateCacheKey hash repo commit files (some sb) ≠
        CacheManager.generateCacheKey hash repo commit files (some sb')) ∧
    (∀ (hash : String → String) (repo commit : String)
        (files files' : List String) (sb : Sandbox),
      CacheManager.collectLockfiles sb files' =
        CacheManager.collectLockfiles sb files →
      CacheManager.generateCacheKey hash repo commit files' (some sb) =
        CacheManager.generateCacheKey hash repo commit files (some sb)) := by
  refine ⟨?_, ?_, ?_, ?_⟩
  · intro hash repo commit files sb sb' hagree
    unfold CacheManager.generateCacheKey
    dsimp only
    have hc : CacheManager.collectLockfiles sb files =
        CacheManager.collectLockfiles sb' files := by
      unfold CacheManager.collectLockfiles
      exact List.filterMap_congr fun f hf => by rw [hagree f hf]
    rw [hc]
  · intro pre post c c' hne heq
    apply hne
    have hd := congrArg String.data heq
    simp only [String.join_eq, List.map_append, List.map_cons,
      List.flatten_append, List.flatten_cons] at hd
    exact String.ext (List.append_cancel_right (List.append_cancel_left hd))
  · intro hash repo commit files sb sb' hne hne' hdig heq
    have hfiles : 0 < files.length := by
      cases hf : files
      · rw [hf] at hne
        exact absurd rfl hne
      · simp [hf]
    unfold CacheManager.generateCacheKey at heq
    dsimp only at heq
    rw [if_pos hfiles, if_pos hfiles,
      if_pos (List.length_pos.mpr hne), if_pos (List.length_pos.mpr hne')] at heq
    rw [show ∀ x y z : String, String.intercalate "-" [x, y, z] =
        x ++ "-" ++ y ++ "-" ++ z from fun _ _ _ => rfl] at heq
    exact hdig (string_append_left_cancel heq)
  · intro hash repo commit files files' sb hcoll
    unfold CacheManager.generateCacheKey
    dsimp only
    rw [hcoll]
    by_cases h0 : CacheManager.collectLockfiles sb files = []
    · rw [h0]
      simp
    · have hlen := List.length_pos.mpr h0
      have hfiles : 0 < files.length := by
        cases hf : files
        · rw [hf] at h0
          exact absurd rfl h0
        · simp [hf]
      have hfiles' : 0 < files'.length := by
        cases hf : files'
        · rw [hf] at hcoll
          exact absurd hcoll.symm h0
        · simp [hf]
      rw [if_pos hfiles, if_pos hfiles']

/-- A sandbox whose exec and write reject but whose manifest reads agree
with `sbSameContent`. -/
def sbSameContent2 : Sandbox :=
  { exec := fun _ _ => .error "down",
    readFile := fun _ => .ok "x",
    writeFile := fun _ _ => .error "down" }

/-- A sandbox in which every manifest file reads as a different content. -/
def sbOtherContent : Sandbox :=
  { exec := fun _ _ => .ok { stdout := "", stderr := "", exitCode := 0 },
    readFile := fun _ => .ok "y",
    writeFile := fun _ _ => .ok () }

/-- A concrete digest-function stand-in. -/
def hashTag : String → String := fun s => s ++ "#d"

/-- Witness for C6's amended statement at concrete sandboxes and files. -/
theorem generateCacheKey_spec_witness :
    (CacheManager.generateCacheKey hashTag "r" "c" ["a.lock"] (some sbSameContent) =
      CacheManager.generateCacheKey hashTag "r" "c" ["a.lock"] (some sbSameContent2)) ∧
    (String.join ([] ++ "x" :: []) ≠ String.join ([] ++ "y" :: [])) ∧
    (CacheManager.generateCacheKey hashTag "r" "c" ["a.lock"] (some sbSameContent) ≠
      CacheManager.generateCacheKey hashTag "r" "c" ["a.lock"] (some sbOtherContent)) ∧
    (CacheManager.generateCacheKey hashTag "r" "c" ["b.lock", "a.lock"] (some sbSameContent) =
      CacheManager.generateCacheKey hashTag "r" "c" ["a.lock", "b.lock"] (some sbSameContent)) :=
  ⟨generateCacheKey_spec.1 hashTag "r" "c" ["a.lock"] sbSameContent sbSameContent2
      (fun f _ => rfl),
   generateCacheKey_spec.2.1 [] [] "x" "y" (by decide),
   generateCacheKey_spec.2.2.1 hashTag "r" "c" ["a.lock"] sbSameContent sbOtherContent
      (by decide) (by decide) (by decide),
   generateCacheKey_spec.2.2.2 hashTag "r" "c" ["a.lock", "b.lock"]
      ["b.lock", "a.lock"] sbSameContent rfl⟩

/-- The empty cache store. -/
def cacheEmpty : CacheState := { blobs := [], meta := [] }

/-- Claim C9: `restoreCache` with a key that has no stored bundle returns
`false` without throwing, leaves the cache stores unchanged and performs no
sandbox action. -/
theorem restoreCache_miss (sb : Sandbox) (now : Nat) (cacheKey : String)
    (st : CacheState)
    (h : kvGet st.blobs ("cache/" ++ cacheKey ++ ".tar.gz") = none) :
    CacheManager.restoreCache sb now cacheKey st = (.ok false, st, []) := by
  unfold CacheManager.restoreCache
  simp only [h]

/-- Witness for C9 on the empty blob store. -/
theorem restoreCache_miss_witness :
    CacheManager.restoreCache sbSameContent 5 "k" cacheEmpty =
      (.ok false, cacheEmpty, []) :=
  restoreCache_miss sbSameContent 5 "k" cacheEmpty rfl

/-! ### Claim theorems: orchestrator -/

/-- A sandbox whose command `cmdA` exits 1 and every other command exits
0. -/
def sbSteps : Sandbox :=
  { exec := fun cmd _ =>
      if cmd = "cmdA" then .ok { stdout := "", stderr := "boom", exitCode := 1 }
      else .ok { stdout := "ok", stderr := "", exitCode := 0 },
    readFile := fun _ => .ok "",
    writeFile := fun _ _ => .ok () }

/-- A two-step job: A fails but continues on error, B succeeds. -/
def jobCont : JobConfig :=
  { id := "j1", repo := "repo", commit := "c",
    steps := [{ name := "A", run := "cmdA", continueOnError := true },
              { name := "B", run := "cmdB" }] }

/-- The enqueue-initialized status of `jobCont`, already marked running by
dequeue. -/
def stJ1 : JobStatus :=
  { id := "j1", status := .running, startedAt := some 2,
    steps := [{ name := "A", status := .pending }, { name := "B", status := .pending }] }

/-- The world holding `jobCont`'s status record. -/
def wJ1 : World :=
  { kv := { queue := [], statuses := [("j1", stJ1)], jobs := [] },
    cache := cacheEmpty, snapshots := [] }

/-- Claim C1 is violated by the code: with steps
`[A: failure(continueOnError=true), B: success]`, `executeJob` runs both
steps, but neither the early-stop branch nor the all-successful branch ever
assigns the job status, so the final status returned and persisted is the
entry value `running` — a non-terminal status — not the `failure` the claim
requires. -/
theorem executeJob_continueOnError_leaves_running :
    (Orchestrator.executeJob hashTag sbSteps 10 jobCont wJ1).map
        (fun p => (p.1.status, p.1.steps.map (fun x => x.status),
          (JobQueue.getJobStatus p.2.kv "j1").map (fun x => x.status))) =
      .ok (.running, [.failure, .success], some .running) := by
  rfl

/-- Claim C5: with steps `[A: success, B: failure(continueOnError=false),
C]` and a pre-populated status record, `executeJob` stops the loop at B:
the final status is `failure` with an error naming step B, A's result slot
is `success`, B's is `failure`, and C's stays the enqueue-time `pending`;
the final status is persisted. -/
theorem executeJob_stops_on_hard_failure (hash : String → String)
    (sb : Sandbox) (now : Nat) (job : JobConfig) (w : World)
    (status0 : JobStatus) (stA stB stC : JobStep)
    (hsteps : job.steps = [stA, stB, stC])
    (hcont : stB.continueOnError = false)
    (hA : (Orchestrator.executeStep sb stA now).status = .success)
    (hB : (Orchestrator.executeStep sb stB now).status = .failure)
    (hsetup : Orchestrator.setupWorkspace sb job = .ok ())
    (h0 : JobQueue.getJobStatus w.kv job.id = some status0)
    (hslots : status0.steps =
      job.steps.map (fun st => { name := st.name, status := .pending })) :
    ∃ r w', Orchestrator.executeJob hash sb now job w = .ok (r, w') ∧
      r.status = .failure ∧
      r.error = some ("Step \x22" ++ stB.name ++ "\x22 failed") ∧
      r.steps = [Orchestrator.executeStep sb stA now,
                 Orchestrator.executeStep sb stB now,
                 { name := stC.name, status := .pending }] ∧
      r.steps.map (fun x => x.status) = [.success, .failure, .pending] ∧
      JobQueue.getJobStatus w'.kv job.id = some r := by
  have eA : ((Orchestrator.executeStep sb stA now).status == SStatus.failure) = false := by
    rw [hA]
    rfl
  have eB : ((Orchestrator.executeStep sb stB now).status == SStatus.failure) = true := by
    rw [hB]
    rfl
  have eAs : ((Orchestrator.executeStep sb stA now).status == SStatus.success) = true := by
    rw [hA]
    rfl
  have eBs : ((Orchestrator.executeStep sb stB now).status == SStatus.success) = false := by
    rw [hB]
    rfl
  have eBk : ((Orchestrator.executeStep sb stB now).status == SStatus.skipped) = false := by
    rw [hB]
    rfl
  unfold Orchestrator.executeJob
  rw [h0]
  dsimp only
  refine ⟨_, _, rfl, ?_, ?_, ?_, ?_, ?_⟩
  · simp [hsetup, hsteps, hslots, Orchestrator.stepLoop, eA, eB, eBs, eBk, hcont]
  · simp [hsetup, hsteps, hslots, Orchestrator.stepLoop, eA, eB, eBs, eBk, hcont]
  · simp [hsetup, hsteps, hslots, Orchestrator.stepLoop, eA, eB, eBs, eBk, hcont]
  · simp [hsetup, hsteps, hslots, Orchestrator.stepLoop, eA, eB, eBs, eBk, hcont,
      hA, hB]
  · exact getJobStatus_update_self _ _ _

/-- Step A of the C5 witness scenario. -/
def stepOkA : JobStep := { name := "A", run := "okA" }

/-- Step B of the C5 witness scenario (hard failure). -/
def stepFailB : JobStep := { name := "B", run := "failB" }

/-- Step C of the C5 witness scenario. -/
def stepOkC : JobStep := { name := "C", run := "okC" }

/-- A sandbox where only `failB` exits nonzero. -/
def sbABC : Sandbox :=
  { exec := fun cmd _ =>
      if cmd = "failB" then .ok { stdout := "", stderr := "no", exitCode := 1 }
      else .ok { stdout := "ok", stderr := "", exitCode := 0 },
    readFile := fun _ => .ok "",
    writeFile := fun _ _ => .ok () }

/-- The three-step job of the C5 witness scenario. -/
def jobABC : JobConfig :=
  { id := "j3", repo := "repo", commit := "c",
    steps := [stepOkA, stepFailB, stepOkC] }

/-- The enqueue-initialized, dequeued status record for `jobABC`. -/
def stJ3 : JobStatus :=
  { id := "j3", status := .running, startedAt := some 2,
    steps := jobABC.steps.map (fun st => { name := st.name, status := .pending }) }

/-- The world holding `jobABC`'s status record. -/
def wJ3 : World :=
  { kv := { queue := [], statuses := [("j3", stJ3)], jobs := [] },
    cache := cacheEmpty, snapshots := [] }

/-- Witness for C5 at the concrete three-step scenario. -/
theorem executeJob_stops_on_hard_failure_witness :
    ∃ r w', Orchestrator.executeJob hashTag sbABC 10 jobABC wJ3 = .ok (r, w') ∧
      r.status = .failure ∧
      r.error = some ("Step \x22" ++ stepFailB.name ++ "\x22 failed") ∧
      r.steps = [Orchestrator.executeStep sbABC stepOkA 10,
                 Orchestrator.executeStep sbABC stepFailB 10,
                 { name := stepOkC.name, status := .pending }] ∧
      r.steps.map (fun x => x.status) = [.success, .failure, .pending] ∧
      JobQueue.getJobStatus w'.kv jobABC.id = some r :=
  executeJob_stops_on_hard_failure hashTag sbABC 10 jobABC wJ3 stJ3
    stepOkA stepFailB stepOkC rfl rfl rfl rfl rfl rfl rfl

/-- A sandbox whose file writes reject (`disk full`) while commands and
reads succeed; commands answer `ok`, so no cache directory probes as
existing. -/
def sbSwallow : Sandbox :=
  { exec := fun _ _ => .ok { stdout := "ok", stderr := "", exitCode := 0 },
    readFile := fun _ => .ok "x",
    writeFile := fun _ _ => .error "disk full" }

/-- A one-step job with a manifest path, so both cache phases run. -/
def jobCR : JobConfig :=
  { id := "jc", repo := "r", commit := "c",
    steps := [{ name := "S", run := "okS" }], cacheKeys := ["a.lock"] }

/-- The dequeued status record of `jobCR`. -/
def stJC : JobStatus :=
  { id := "jc", status := .running, startedAt := some 2,
    steps := [{ name := "S", status := .pending }] }

/-- A cache store holding a bundle under `jobCR`'s derived key, so the
restore takes the hit path and hits the rejected write. -/
def cacheJC : CacheState :=
  { blobs := [("cache/r-c-x#d.tar.gz", { body := "blob" })], meta := [] }

/-- The world for `jobCR`. -/
def wJC : World :=
  { kv := { queue := [], statuses := [("jc", stJC)], jobs := [] },
    cache := cacheJC, snapshots := [] }

/-- A sandbox in which dispatching command `exA` raises while every other
command succeeds. -/
def sbStepExn : Sandbox :=
  { exec := fun cmd _ =>
      if cmd = "exA" then .error "boom"
      else .ok { stdout := "ok", stderr := "", exitCode := 0 },
    readFile := fun _ => .ok "",
    writeFile := fun _ _ => .ok () }

/-- A job whose first step's dispatch raises but continues on error. -/
def jobExn : JobConfig :=
  { id := "je", repo := "r", commit := "c",
    steps := [{ name := "A", run := "exA", continueOnError := true },
              { name := "B", run := "okB" }] }

/-- The dequeued status record of `jobExn`. -/
def stJE : JobStatus :=
  { id := "je", status := .running, startedAt := some 2,
    steps := [{ name := "A", status := .pending }, { name := "B", status := .pending }] }

/-- The world for `jobExn`. -/
def wJE : World :=
  { kv := { queue := [], statuses := [("je", stJE)], jobs := [] },
    cache := cacheEmpty, snapshots := [] }

/-- Counterexample to claim C7 as stated.  Run 1 (`jobCR`): an exception
is raised during cache restore (the hit path's write rejects with
`disk full`) and another during cache save (`No cache directories found to
archive`), yet the final JobStatus persisted and returned is `success`
with no error string — not `failure` with the exception's message.  Run 2
(`jobExn`): an exception `boom` is raised dispatching step A
(`continueOnError`), and the final persisted JobStatus is the non-terminal
`running` with no error string — no terminal JobStatus is persisted. -/
theorem executeJob_swallows_cache_and_step_exceptions :
    (CacheManager.restoreCache sbSwallow 10 "r-c-x#d" cacheJC).1 =
      .error "disk full" ∧
    CacheManager.saveCache sbSwallow 10 "r-c-x#d"
        (CacheManager.getDefaultCachePaths .node ++
          CacheManager.getDefaultCachePaths .python ++
            CacheManager.getDefaultCachePaths .go) cacheJC =
      .error "No cache directories found to archive" ∧
    (Orchestrator.executeJob hashTag sbSwallow 10 jobCR wJC).map
        (fun p => (p.1.status, p.1.error,
          (JobQueue.getJobStatus p.2.kv "jc").map (fun x => x.status))) =
      .ok (.success, none, some .success) ∧
    sbStepExn.exec "exA" (some "/workspace/repo") = .error "boom" ∧
    (Orchestrator.executeJob hashTag sbStepExn 10 jobExn wJE).map
        (fun p => (p.1.status, p.1.error,
          (JobQueue.getJobStatus p.2.kv "je").map (fun x => x.status))) =
      .ok (.running, none, some .running) := by
  exact ⟨rfl, rfl, rfl, rfl, rfl⟩

/-- Claim C7 (amended): when the job's status record exists at entry,
`executeJob` never propagates an exception — for every sandbox oracle it
returns normally and persists the returned JobStatus.  An exception
escaping workspace setup, or snapshot creation after an all-successful
step loop, is caught at the top level and makes the final status `failure`
with the exception's message (a terminal status).  An exception inside
cache restore or cache save is swallowed — demoted to a cache miss or a
skipped save — without becoming a job-level failure; and an exception
dispatching a step is caught inside the step executor and becomes that
step's `failure` StepResult with the message as output and exit code 1,
not a job-level failure. -/
theorem executeJob_exception_boundary_spec (hash : String → String)
    (sb : Sandbox) (now : Nat) (job : JobConfig) (w : World)
    (status0 : JobStatus)
    (h0 : JobQueue.getJobStatus w.kv job.id = some status0) :
    ∃ r w', Orchestrator.executeJob hash sb now job w = .ok (r, w') ∧
      JobQueue.getJobStatus w'.kv job.id = some r ∧
      (∀ e, Orchestrator.setupWorkspace sb job = .error e →
        r.status = .failure ∧ r.error = some e) ∧
      (∀ e, Orchestrator.setupWorkspace sb job = .ok () →
        (Orchestrator.stepLoop sb now job 0 job.steps status0 w.kv).1.steps.all
            (fun s => s.status == .success || s.status == .skipped) = true →
        StateManager.createSnapshot sb now job.id job.commit ["/workspace"]
            w.snapshots = .error e →
        r.status = .failure ∧ r.error = some e) ∧
      (∀ (m : String) (c st' : CacheState) (tr : List SandboxAction),
        job.cacheKeys ≠ [] →
        CacheManager.restoreCache sb now
            (CacheManager.generateCacheKey hash job.repo job.commit
              job.cacheKeys (some sb)) c = (.error m, st', tr) →
        Orchestrator.restoreCachePhase hash sb now job c = (false, st')) ∧
      (∀ (m : String) (c : CacheState),
        job.cacheKeys ≠ [] →
        CacheManager.saveCache sb now
            (CacheManager.generateCacheKey hash job.repo job.commit
              job.cacheKeys (some sb))
            (CacheManager.getDefaultCachePaths .node ++
              CacheManager.getDefaultCachePaths .python ++
                CacheManager.getDefaultCachePaths .go) c = .error m →
        Orchestrator.saveCachePhase hash sb now job c = c) ∧
      (∀ (step : JobStep) (m : String), step.env = [] →
        step.workingDir = none →
        sb.exec step.run (some "/workspace/repo") = .error m →
        (Orchestrator.executeStep sb step now).status = .failure ∧
        (Orchestrator.executeStep sb step now).output = some m ∧
        (Orchestrator.executeStep sb step now).exitCode = some 1) := by
  unfold Orchestrator.executeJob
  rw [h0]
  dsimp only
  refine ⟨_, _, rfl, getJobStatus_update_self _ _ _, ?_, ?_, ?_, ?_, ?_⟩
  · intro e he
    simp [he]
  · intro e hsetup hall hsnap
    simp only [hsetup]
    rw [if_pos hall]
    simp [apply_ite World.snapshots, hsnap]
  · intro m c st' tr hck hrc
    have hne : job.cacheKeys.isEmpty = false := by
      cases h : job.cacheKeys
      · exact absurd h hck
      · rfl
    unfold Orchestrator.restoreCachePhase
    rw [if_neg (by simp [hne])]
    simp only [hrc]
  · intro m c hck hsv
    have hne : job.cacheKeys.isEmpty = false := by
      cases h : job.cacheKeys
      · exact absurd h hck
      · rfl
    unfold Orchestrator.saveCachePhase
    rw [if_neg (by simp [hne])]
    simp only [hsv]
  · intro step m henv hwd hex
    unfold Orchestrator.executeStep
    simp only [henv, hwd, hex, Orchestrator.exportEnv, Option.getD]
    exact ⟨rfl, rfl, rfl⟩

/-- A sandbox every operation of which rejects. -/
def sbDown : Sandbox :=
  { exec := fun _ _ => .error "boom",
    readFile := fun _ => .error "boom",
    writeFile := fun _ _ => .error "boom" }

/-- A job and world for the C7 witness. -/
def jobW : JobConfig := mkJob "jw" 5

/-- The status record of `jobW` at entry. -/
def stW : JobStatus := { id := "jw", status := .running, steps := [] }

/-- The world holding `jobW`'s running status record. -/
def wW : World :=
  { kv := { queue := [], statuses := [("jw", stW)], jobs := [] },
    cache := cacheEmpty, snapshots := [] }

/-- Witness for C7's amended statement with a sandbox whose every call
rejects: setup's first command raises, so the top-level catch path is
exercised concretely. -/
theorem executeJob_exception_boundary_spec_witness :
    ∃ r w', Orchestrator.executeJob hashTag sbDown 10 jobW wW = .ok (r, w') ∧
      JobQueue.getJobStatus w'.kv jobW.id = some r ∧
      (∀ e, Orchestrator.setupWorkspace sbDown jobW = .error e →
        r.status = .failure ∧ r.error = some e) ∧
      (∀ e, Orchestrator.setupWorkspace sbDown jobW = .ok () →
        (Orchestrator.stepLoop sbDown 10 jobW 0 jobW.steps stW wW.kv).1.steps.all
            (fun s => s.status == .success || s.status == .skipped) = true →
        StateManager.createSnapshot sbDown 10 jobW.id jobW.commit ["/workspace"]
            wW.snapshots = .error e →
        r.status = .failure ∧ r.error = some e) ∧
      (∀ (m : String) (c st' : CacheState) (tr : List SandboxAction),
        jobW.cacheKeys ≠ [] →
        CacheManager.restoreCache sbDown 10
            (CacheManager.generateCacheKey hashTag jobW.repo jobW.commit
              jobW.cacheKeys (some sbDown)) c = (.error m, st', tr) →
        Orchestrator.restoreCachePhase hashTag sbDown 10 jobW c = (false, st')) ∧
      (∀ (m : String) (c : CacheState),
        jobW.cacheKeys ≠ [] →
        CacheManager.saveCache sbDown 10
            (CacheManager.generateCacheKey hashTag jobW.repo jobW.commit
              jobW.cacheKeys (some sbDown))
            (CacheManager.getDefaultCachePaths .node ++
              CacheManager.getDefaultCachePaths .python ++
                CacheManager.getDefaultCachePaths .go) c = .error m →
        Orchestrator.saveCachePhase hashTag sbDown 10 jobW c = c) ∧
      (∀ (step : JobStep) (m : String), step.env = [] →
        step.workingDir = none →
        sbDown.exec step.run (some "/workspace/repo") = .error m →
        (Orchestrator.executeStep sbDown step 10).status = .failure ∧
        (Orchestrator.executeStep sbDown step 10).output = some m ∧
        (Orchestrator.executeStep sbDown step 10).exitCode = some 1) :=
  executeJob_exception_boundary_spec hashTag sbDown 10 jobW wW stW rfl

end CICD
